import Mathlib

/-!
Verification development for the Lyapunov-RL repository (CEGAR loop for a
learned Lyapunov certificate on a pendulum).

Shallow embedding conventions:
* Machine floats are idealised as `ℚ` where the source only uses field
  operations, comparisons, `abs`, `sign`, `max`; as `ℝ` where the source
  needs `sqrt` (Euclidean norms in the trajectory simulator).
* Neural networks, the RK4 integrator (`util/rk4_step.py`, not part of the
  sources), and the dReal solver are external collaborators; they are
  abstracted as opaque function parameters exactly where the sources call
  them.
* Autodiff is modelled by forward-mode dual numbers: a scalar carries its
  value and its derivative with respect to one (arbitrary) parameter;
  `detach` zeroes the derivative component, mirroring `Tensor.detach`.
-/

namespace LyapunovRL

/-! ### Region sampler (`src/util/sampling.py`) -/

/-- `np.sign` on rationals: `1` for positives, `-1` for negatives, `0` at `0`. -/
def qsign (a : ℚ) : ℚ :=
  if 0 < a then 1 else if a < 0 then -1 else 0

/-- `np.max(np.abs(x) / (ub * scale))`, the per-sample maximum
coordinate-to-bound ratio from `sample_out_of_region` (sampling.py line 42).
All terms are nonnegative when `ub * scale` is positive, so folding `max`
from `0` agrees with `np.max` over the nonempty coordinate list. -/
def maxCoordRatio {d : ℕ} (x ub : Fin d → ℚ) (scale : ℚ) : ℚ :=
  Finset.univ.fold max 0 (fun i => |x i| / (ub i * scale))

/-- One sample of `sample_out_of_region` (sampling.py lines 39-48): the raw
draw `draw` (from `U[-1,1]^d`) is divided by its maximum coordinate-to-bound
ratio, then perturbed by `sign(x) * noise` with `noise` drawn from
`U[0,0.5)^d`.  The randomness is made explicit as the `draw` and `noise`
arguments.  `lb` is received exactly as in the source, where its only use is
`lb.shape[0]` (the dimension `d`, here a type index). -/
def sample_out_of_region {d : ℕ} (lb ub : Fin d → ℚ) (scale : ℚ)
    (draw noise : Fin d → ℚ) : Fin d → ℚ :=
  let r := maxCoordRatio draw ub scale
  fun i => draw i / r + qsign (draw i / r) * noise i

/-- The `n`-sample batch of `sample_out_of_region`: the source draws an
`(n, d)` matrix and an `(n, d)` noise matrix and maps the per-row
transformation over them. -/
def sample_out_of_region_batch {d : ℕ} (lb ub : Fin d → ℚ) (scale : ℚ)
    (draws noises : List (Fin d → ℚ)) : List (Fin d → ℚ) :=
  (draws.zip noises).map fun p => sample_out_of_region lb ub scale p.1 p.2

/-! ### Dynamics oracle (`src/util/dynamics.py`) -/

/-- `pendulum_dynamics_torch` (dynamics.py lines 32-57), elementwise on one
state `(theta, theta_dot)` and one (squeezed) scalar action.  `sin` is the
library sine, abstracted as a function parameter shared with the symbolic
form; `g`, `m`, `l` are the keyword constants, `b = 0.01` is bound in the
body. -/
def pendulum_dynamics_torch (sin : ℚ → ℚ) (g m l : ℚ)
    (state : ℚ × ℚ) (action : ℚ) : ℚ × ℚ :=
  let theta := state.1
  let theta_dot := state.2
  let b : ℚ := 1/100
  (theta_dot, (g / l) * sin theta - (b / (m * l * l)) * theta_dot
    + (1 / (m * l ^ 2)) * action)

/-- `pendulum_dynamics_dreal` (dynamics.py lines 84-105) on one symbolic
state `(theta, omega)` and the single action `action[0]`, with the same
abstract `sin` and constants. -/
def pendulum_dynamics_dreal (sin : ℚ → ℚ) (g m l : ℚ)
    (state : ℚ × ℚ) (action : ℚ) : ℚ × ℚ :=
  let theta := state.1
  let omega := state.2
  let b : ℚ := 1/100
  (omega, (g / l) * sin theta - (b / (m * l * l)) * omega
    + (1 / (m * l * l)) * action)

/-- The physical equations as the spec states them: both oracle forms must
return `(theta_dot, (g/l)*sin(theta) - (b/(m*l^2))*theta_dot +
(1/(m*l^2))*u)` with `b = 0.01`.  Written from the spec's words for the
refinement claim C8. -/
def pendulum_dynamics_spec (sin : ℚ → ℚ) (g m l : ℚ)
    (state : ℚ × ℚ) (action : ℚ) : ℚ × ℚ :=
  (state.2, (g / l) * sin state.1 - ((1/100) / (m * l ^ 2)) * state.2
    + (1 / (m * l ^ 2)) * action)

/-! ### Forward-mode dual numbers (autodiff model for the PDE residual) -/

/-- A differentiable scalar: its value and its derivative with respect to
one fixed scalar network parameter.  `torch` tensors entering the loss are
modelled this way so that `detach` (which blocks gradient flow) is the map
zeroing the derivative component. -/
structure Dual where
  val : ℚ
  der : ℚ
deriving DecidableEq

instance : Add Dual := ⟨fun a b => ⟨a.val + b.val, a.der + b.der⟩⟩

instance : Sub Dual := ⟨fun a b => ⟨a.val - b.val, a.der - b.der⟩⟩

instance : Mul Dual := ⟨fun a b => ⟨a.val * b.val, a.val * b.der + a.der * b.val⟩⟩

instance : Zero Dual := ⟨⟨0, 0⟩⟩

instance : One Dual := ⟨⟨1, 0⟩⟩

/-- `Tensor.detach`: same value, no gradient flow. -/
def Dual.detach (a : Dual) : Dual := ⟨a.val, 0⟩

/-- A literal constant (such as `alpha`): no derivative. -/
def Dual.const (q : ℚ) : Dual := ⟨q, 0⟩

/-- `torch.sum(a * b, dim=1)` for one batch row: elementwise product then
sum. -/
def dualDot (xs ys : List Dual) : Dual :=
  (List.zipWith (fun a b => a * b) xs ys).foldr (fun a b => a + b) 0

/-- `torch.mean` over a batch of scalars: the sum divided by the length
(as a constant). -/
def dualMean (l : List Dual) : Dual :=
  Dual.const (1 / (l.length : ℚ)) * l.foldr (fun a b => a + b) 0

/-- One row of the PDE residual exactly as trainer line 97 writes it:
`torch.sum(grad_Wx * fxu.detach(), dim=1) + alpha * (1 + Wx) * (1 - Wx) * phix`,
where `gradW` is the certificate input-gradient at the sampled state, `fxu`
the closed-loop dynamics value, `Wx` the certificate value and `phix` the
state's Euclidean norm (an input to the loss, constant in the parameters
here because the sampled states do not depend on them). -/
def pde_residual (alpha : ℚ) (gradW fxu : List Dual) (Wx phix : Dual) : Dual :=
  dualDot gradW (fxu.map Dual.detach)
    + Dual.const alpha * (1 + Wx) * (1 - Wx) * phix

/-- The residual as the spec formula writes it:
`⟨∇W(x), f(x, policy(x))⟩ + alpha * (1 - W(x)^2) * ||x||`, the dynamics
term detached.  Written from the spec's words for claim C7. -/
def pde_residual_spec (alpha : ℚ) (gradW fxu : List Dual) (Wx phix : Dual) : Dual :=
  dualDot gradW (fxu.map Dual.detach)
    + Dual.const alpha * (1 - Wx * Wx) * phix

/-- Trainer line 98, `Lp = torch.mean(torch.square(resid))`, over a batch of
rows `(gradW, fxu, Wx, phix)`. -/
def pde_loss (alpha : ℚ) (batch : List (List Dual × List Dual × Dual × Dual)) : Dual :=
  dualMean (batch.map fun s =>
    let r := pde_residual alpha s.1 s.2.1 s.2.2.1 s.2.2.2
    r * r)

/-- The same loss built from the spec's residual form (claim C7). -/
def pde_loss_spec (alpha : ℚ) (batch : List (List Dual × List Dual × Dual × Dual)) : Dual :=
  dualMean (batch.map fun s =>
    let r := pde_residual_spec alpha s.1 s.2.1 s.2.2.1 s.2.2.2
    r * r)

/-! ### States entering the loss terms of `LyapunovACTrainer.train`
(`src/trainers/lyapunov_ac_trainer.py` lines 63-112) -/

/-- The multiset of states that enter any of the five loss terms of one
`LyapunovACTrainer.train()` call, in source order: the origin batch
`zeros_tensor` of loss term 1 (line 79), the fresh trajectory initial
states of term 2 (lines 67-72), the `sample_in_region` batch shared by
terms 3 and 4 (line 88), and the `sample_out_of_region` batch of term 5
(line 106).  The method has no counter-example parameter: these four
sources are its only state inputs. -/
def trainLossStates (stateDim : ℕ) (trajStarts r1Samples r2Samples : List (List ℚ)) :
    List (List ℚ) :=
  [List.replicate stateDim 0] ++ trajStarts ++ r1Samples ++ r2Samples

/-! ### Counter-example extraction (`src/train_las_lac_cegar.py` lines 11-24) -/

/-- A value the dReal model assigns to a variable: an exact number or a
bound interval (whose `mid()` is its midpoint). -/
inductive DrealVal where
  | num (q : ℚ)
  | interval (lo hi : ℚ)
deriving DecidableEq

/-- `val.mid() if isinstance(val, d.Interval) else val` (line 21). -/
def DrealVal.resolve : DrealVal → ℚ
  | .num q => q
  | .interval lo hi => (lo + hi) / 2

/-- Python `int(...)` applied to the characters after the leading `x`: an
optional sign followed by a nonempty run of digits parses to the integer;
anything else raises `ValueError`, modelled as `none`.  (Python's `int`
also tolerates surrounding whitespace and digit-group underscores; model
names are canonical `x<i>` numerals, where the two agree.) -/
def parsePyInt (cs : List Char) : Option ℤ :=
  match cs with
  | [] => none
  | '+' :: rest =>
      if rest ≠ [] ∧ rest.all Char.isDigit
      then some ((rest.foldl (fun n c => 10 * n + (c.toNat - '0'.toNat)) 0 : ℕ) : ℤ)
      else none
  | '-' :: rest =>
      if rest ≠ [] ∧ rest.all Char.isDigit
      then some (-((rest.foldl (fun n c => 10 * n + (c.toNat - '0'.toNat)) 0 : ℕ) : ℤ))
      else none
  | _ =>
      if cs.all Char.isDigit
      then some ((cs.foldl (fun n c => 10 * n + (c.toNat - '0'.toNat)) 0 : ℕ) : ℤ)
      else none

/-- Lines 17-19: `var_name.startswith('x')` then `int(var_name[1:])`;
`none` when either step fails (the `except` path). -/
def parseXIndex (name : String) : Option ℤ :=
  match name.data with
  | 'x' :: rest => parsePyInt rest
  | _ => none

/-- The body of the extraction loop (lines 15-23) for one model entry:
when the name parses as `x<i>` with `0 <= i < state_dim`, coordinate `i`
is overwritten with the resolved value; every other entry — missing `x`
prefix, malformed index (`ValueError`), out-of-range index — is skipped,
never raised. -/
def ceStep (stateDim : ℕ) (ce : List ℚ) (p : String × DrealVal) : List ℚ :=
  match parseXIndex p.1 with
  | some i =>
      if 0 ≤ i ∧ i < (stateDim : ℤ) then ce.set i.toNat p.2.resolve else ce
  | none => ce

/-- `extract_ce_from_model` (lines 11-24).  The dReal model is a mapping
from variable names to values, here an association list in iteration order
(`none` for a falsy model).  Starting from `np.zeros(state_dim)`, the loop
body `ceStep` is folded over the entries. -/
def extract_ce_from_model (model : Option (List (String × DrealVal)))
    (stateDim : ℕ) : List ℚ :=
  match model with
  | none => List.replicate stateDim 0
  | some entries => entries.foldl (ceStep stateDim) (List.replicate stateDim 0)

/-! ### CEGAR controller (`src/train_las_lac_cegar.py` lines 27-120) -/

/-- The falsifier's answer to one `check_lyapunov_with_ce` query: a
validity verdict, or `invalid` with the (possibly falsy) model. -/
inductive FalsifierAnswer where
  | valid
  | invalid (model : Option (List (String × DrealVal)))

/-- The observable actions of `run_las_lyapunov_ac_cegar_training`, in
program order: one learner step (`agent.update`, called with the full
accumulated counter-example list), one falsifier query, the success
message, a checkpoint save (`agent.save`), appending an extracted
counter-example, the `TRAINING FAILED` error report, and the final metrics
bookkeeping (`tracker.add_run_losses` + loss-plot save, lines 118-119). -/
inductive CegarEvent where
  | trainStep
  | verifyQuery
  | reportSuccess
  | saveCheckpoint
  | appendCE (ce : List ℚ)
  | reportFailed
  | finalMetrics
deriving DecidableEq

/-- Result of a controller run: the ordered event trace, the accumulated
counter-example list, and whether verification succeeded (the code signals
success by the `SUCCESS!` log + `break`; exhaustion by the `for`-`else`
`TRAINING FAILED` error log). -/
structure CegarResult where
  events : List CegarEvent
  ces : List (List ℚ)
  verified : Bool
deriving DecidableEq

/-- The `for i in range(MAX_CEGAR_ITERATIONS)` loop (lines 78-115),
recursing on the remaining iteration count.  Each iteration runs
`stepsPerIter` learner steps, queries the falsifier once, and either
reports success, saves and breaks, or extracts + appends the
counter-example and saves.  When the range is exhausted without a break,
the `else` branch reports the failure. -/
def cegarLoop (falsifier : ℕ → FalsifierAnswer) (stepsPerIter stateDim : ℕ) :
    ℕ → ℕ → List CegarEvent → List (List ℚ) → CegarResult
  | 0, _, evs, ces => ⟨evs ++ [.reportFailed], ces, false⟩
  | remaining + 1, i, evs, ces =>
      let evs2 := evs ++ List.replicate stepsPerIter .trainStep ++ [.verifyQuery]
      match falsifier i with
      | .valid => ⟨evs2 ++ [.reportSuccess, .saveCheckpoint], ces, true⟩
      | .invalid model =>
          let ce := extract_ce_from_model model stateDim
          cegarLoop falsifier stepsPerIter stateDim remaining (i + 1)
            (evs2 ++ [.appendCE ce, .saveCheckpoint]) (ces ++ [ce])

/-- `run_las_lyapunov_ac_cegar_training` after configuration: the CEGAR
loop followed by the unconditional final bookkeeping (lines 117-120). -/
def run_cegar (falsifier : ℕ → FalsifierAnswer)
    (maxIters stepsPerIter stateDim : ℕ) : CegarResult :=
  let r := cegarLoop falsifier stepsPerIter stateDim maxIters 0 [] []
  ⟨r.events ++ [.finalMetrics], r.ces, r.verified⟩

/-- Count of learner steps in a trace. -/
def countTrainSteps (evs : List CegarEvent) : ℕ :=
  evs.countP fun e => match e with | .trainStep => true | _ => false

/-- Count of checkpoint saves in a trace. -/
def countSaves (evs : List CegarEvent) : ℕ :=
  evs.countP fun e => match e with | .saveCheckpoint => true | _ => false

/-- Count of falsifier queries in a trace (one per CEGAR iteration run). -/
def countVerifies (evs : List CegarEvent) : ℕ :=
  evs.countP fun e => match e with | .verifyQuery => true | _ => false

/-! ### Trajectory simulator
(`LyapunovACTrainer.simulate_trajectory`, trainer lines 144-206) -/

/-- `torch.linalg.vector_norm(x, ord=2)` on a 2-dimensional state. -/
noncomputable def norm2 (p : ℝ × ℝ) : ℝ :=
  Real.sqrt (p.1 ^ 2 + p.2 ^ 2)

/-- The simulator's fixed configuration: the thresholds and step size from
the trainer, and the closed-loop one-step map
`x ↦ rk4_step(dynamics_fn, x, actor(x), dt)` (lines 198-204).  The actor
network and `util/rk4_step.py` are external to the sources, so the
composed step map is abstracted as a function parameter; it subsumes the
action-shape normalisation `u.unsqueeze(1)`. -/
structure SimParams where
  normThreshold : ℝ
  integThreshold : ℝ
  dt : ℝ
  step : ℝ × ℝ → ℝ × ℝ

/-- The `while True` termination test of trainer lines 187-189 (with
`steps` already incremented): low norm, or plateau — history longer than
10 and `traj[-1]` within `1e-3` of `traj[-10]` (Python indexing: the tenth
element from the end) — or step budget reached. -/
def stopCond (P : SimParams) (maxSteps : ℕ) (x : ℝ × ℝ)
    (traj : List (ℝ × ℝ)) (steps : ℕ) : Prop :=
  norm2 x < P.normThreshold ∨
    (traj.length > 10 ∧
      norm2 (traj.getD (traj.length - 1) (0, 0) - traj.getD (traj.length - 10) (0, 0))
        < 1 / 1000) ∨
    steps ≥ maxSteps

noncomputable instance (P : SimParams) (maxSteps : ℕ) (x : ℝ × ℝ)
    (traj : List (ℝ × ℝ)) (steps : ℕ) : Decidable (stopCond P maxSteps x traj steps) := by
  unfold stopCond; infer_instance

/-- The simulation loop (trainer lines 177-206), with an explicit fuel
argument for the recursion.  Each pass increments `steps`, accumulates
`integ_acc += ||x|| * dt`, returns convergent on `stopCond`, divergent
when the accumulated integral exceeds the threshold, and otherwise appends
the stepped state.  The `steps >= max_steps` disjunct fires before `fuel`
can run out whenever `fuel ≥ maxSteps - steps`, as in the initial call; the
fuel-exhausted fallback mirrors the convergent return of that disjunct. -/
noncomputable def simLoop (P : SimParams) (maxSteps : ℕ) :
    ℕ → ℝ × ℝ → List (ℝ × ℝ) → ℝ → ℕ → List (ℝ × ℝ) × ℝ × Bool
  | 0, x, traj, acc, steps =>
      let acc2 := acc + norm2 x * P.dt
      if stopCond P maxSteps x traj (steps + 1) then (traj, acc2, true)
      else if acc2 > P.integThreshold then (traj, acc2, false)
      else (traj, acc2, true)
  | fuel + 1, x, traj, acc, steps =>
      let acc2 := acc + norm2 x * P.dt
      if stopCond P maxSteps x traj (steps + 1) then (traj, acc2, true)
      else if acc2 > P.integThreshold then (traj, acc2, false)
      else
        simLoop P maxSteps fuel (P.step x) (traj ++ [P.step x]) acc2 (steps + 1)

/-- `simulate_trajectory(x, max_steps)` with an explicit starting state
(the `x is None` branch samples one from R1 first and is not needed by the
claims): `traj = [x.clone()]`, `integ_acc = 0.0`, `steps = 0`, then the
loop.  Returns `(traj, integ_acc, convergence)`. -/
noncomputable def simulate_trajectory (P : SimParams) (x : ℝ × ℝ)
    (maxSteps : ℕ) : List (ℝ × ℝ) × ℝ × Bool :=
  simLoop P maxSteps maxSteps x [x] 0 0

/-- A concrete simulator configuration exhibiting the plateau-check
indexing: `norm_threshold = 1/2`, `integ_threshold = 8/5`, `dt = 1/10`,
and a closed-loop step map bouncing the first coordinate between `1` and
`2` (period two, so the state ten steps earlier always equals the current
state while the state nine steps earlier is at distance `1`). -/
noncomputable def plateauParams : SimParams :=
  ⟨1/2, 8/5, 1/10, fun p => (3 - p.1, 0)⟩

/-- The trajectory returned by `simulate_trajectory plateauParams (1,0) 100`:
twelve states alternating between `(1,0)` and `(2,0)`. -/
def plateauTraj : List (ℝ × ℝ) :=
  [(1, 0), (2, 0), (1, 0), (2, 0), (1, 0), (2, 0),
   (1, 0), (2, 0), (1, 0), (2, 0), (1, 0), (2, 0)]

/-! ## Theorems -/

theorem Dual.add_def (a b : Dual) :
    a + b = ⟨a.val + b.val, a.der + b.der⟩ := rfl

theorem Dual.sub_def (a b : Dual) :
    a - b = ⟨a.val - b.val, a.der - b.der⟩ := rfl

theorem Dual.mul_def (a b : Dual) :
    a * b = ⟨a.val * b.val, a.val * b.der + a.der * b.val⟩ := rfl

theorem Dual.one_def : (1 : Dual) = ⟨1, 0⟩ := rfl

/-- The code's `alpha * (1 + W) * (1 - W)` and the spec's
`alpha * (1 - W^2)` agree as differentiable scalars: equal values and, by
the product rule, equal derivatives. -/
theorem dual_sq_factor (c : ℚ) (W : Dual) :
    Dual.const c * (1 + W) * (1 - W) = Dual.const c * (1 - W * W) := by
  cases W with
  | mk v d =>
    simp only [Dual.const, Dual.add_def, Dual.sub_def, Dual.mul_def, Dual.one_def]
    rw [Dual.mk.injEq]
    constructor <;> ring

/-- Rowwise the code residual (trainer line 97) is the spec residual. -/
theorem pde_residual_eq_spec (alpha : ℚ) (gradW fxu : List Dual) (Wx phix : Dual) :
    pde_residual alpha gradW fxu Wx phix = pde_residual_spec alpha gradW fxu Wx phix := by
  unfold pde_residual pde_residual_spec
  rw [dual_sq_factor]

/-- `detach` forgets exactly the derivative component. -/
theorem map_detach_eq_of_val (l l' : List Dual) (h : l.map Dual.val = l'.map Dual.val) :
    l.map Dual.detach = l'.map Dual.detach := by
  have key : ∀ m : List Dual, m.map Dual.detach = (m.map Dual.val).map fun v => ⟨v, 0⟩ := by
    intro m
    induction m with
    | nil => rfl
    | cons a t ih => simp [Dual.detach, ih]
  rw [key, key, h]

/-- C7: the PDE residual of the training step equals the spec formula — the
code's `alpha * (1 + W) * (1 - W) * ||x||` term is the spec's
`alpha * (1 - W^2) * ||x||`, the loss is the mean of the squared residual
(here: the loss built from the code's residual form is the loss built from
the spec's residual form, for every batch), and the dynamics value enters
the residual as a detached input: two dynamics batches with the same values
but arbitrary derivative components yield identical residuals, so no
gradient flows back through the dynamics oracle. -/
theorem pde_residual_matches_spec :
    (∀ (alpha : ℚ) (batch : List (List Dual × List Dual × Dual × Dual)),
        pde_loss alpha batch = pde_loss_spec alpha batch) ∧
      ∀ (alpha : ℚ) (gradW : List Dual) (Wx phix : Dual) (fxu fxu' : List Dual),
        fxu.map Dual.val = fxu'.map Dual.val →
          pde_residual alpha gradW fxu Wx phix = pde_residual alpha gradW fxu' Wx phix := by
  constructor
  · intro alpha batch
    unfold pde_loss pde_loss_spec
    simp only [pde_residual_eq_spec]
  · intro alpha gradW Wx phix fxu fxu' h
    unfold pde_residual
    rw [map_detach_eq_of_val fxu fxu' h]

/-- Witness for C7 at a concrete input: the two dynamics rows `⟨2, 3⟩` and
`⟨2, 7⟩` share the value `2`, and the residuals coincide. -/
theorem pde_residual_matches_spec_witness :
    pde_residual 1 [⟨1, 1⟩] [⟨2, 3⟩] ⟨0, 1⟩ ⟨5, 0⟩
      = pde_residual 1 [⟨1, 1⟩] [⟨2, 7⟩] ⟨0, 1⟩ ⟨5, 0⟩ :=
  pde_residual_matches_spec.2 1 [⟨1, 1⟩] ⟨0, 1⟩ ⟨5, 0⟩ [⟨2, 3⟩] [⟨2, 7⟩] (by decide)

/-- C8: the numeric (torch) and symbolic (dreal) pendulum dynamics
implement identical physical equations: for every shared sine function,
constants `g m l` (with `b = 0.01` bound in each body), state and action,
both equal the spec's
`(theta_dot, (g/l) sin theta - (b/(m l^2)) theta_dot + (1/(m l^2)) u)`. -/
theorem pendulum_dynamics_forms_agree :
    ∀ (sin : ℚ → ℚ) (g m l : ℚ) (state : ℚ × ℚ) (action : ℚ),
      pendulum_dynamics_torch sin g m l state action
          = pendulum_dynamics_dreal sin g m l state action ∧
        pendulum_dynamics_torch sin g m l state action
          = pendulum_dynamics_spec sin g m l state action := by
  intro sin g m l state action
  unfold pendulum_dynamics_torch pendulum_dynamics_dreal pendulum_dynamics_spec
  constructor <;>
    · rw [Prod.mk.injEq]
      exact ⟨rfl, by ring⟩

/-- C10: `sample_out_of_region` does not depend on its `lb` argument —
given the same random draws the output is the same for any two lower
bounds — and for an asymmetric region a returned sample can land inside
the scaled region on the lower-bound side: with `lb = -10`, `ub = 1`,
`scale = 2`, the draw `-1/2` (noise `0`) yields the sample `-2`, which
lies strictly between `lb * scale = -20` and `ub * scale = 2`. -/
theorem sample_out_of_region_ignores_lb :
    (∀ (d : ℕ) (lb lb' ub draw noise : Fin d → ℚ) (scale : ℚ),
        sample_out_of_region lb ub scale draw noise
          = sample_out_of_region lb' ub scale draw noise) ∧
      sample_out_of_region (fun _ : Fin 1 => -10) (fun _ => 1) 2
          (fun _ => -1/2) (fun _ => 0) 0 = -2 ∧
      (-10 : ℚ) * 2 < -2 ∧ (-2 : ℚ) < 1 * 2 := by
  refine ⟨fun d lb lb' ub draw noise scale => rfl, ?_, by norm_num, by norm_num⟩
  unfold sample_out_of_region maxCoordRatio
  rw [Finset.univ_unique, Finset.fold_singleton]
  norm_num [qsign]
  rw [abs_of_pos (by norm_num : (0:ℚ) < 1/2), max_eq_left (by norm_num : (0:ℚ) ≤ 1/2/2)]
  norm_num

theorem countP_replicate (p : CegarEvent → Bool) (n : ℕ) (a : CegarEvent) :
    (List.replicate n a).countP p = if p a then n else 0 := by
  induction n with
  | zero => simp
  | succ k ih =>
      rw [List.replicate_succ, List.countP_cons]
      rcases h : p a with _ | _ <;> simp [ih, h]

/-- C2: if the falsifier answers `valid` on the first query, the controller
runs exactly one TRAINING phase (`stepsPerIter` learner steps, one
falsifier query), saves the parameters exactly once, terminates with the
success verdict, and the counter-example set is empty. The full event
trace is `stepsPerIter` learner steps, the query, the success report, the
single checkpoint save, then the final bookkeeping. -/
theorem cegar_valid_first_query :
    ∀ (falsifier : ℕ → FalsifierAnswer) (maxIters stepsPerIter stateDim : ℕ),
      0 < maxIters → falsifier 0 = .valid →
        run_cegar falsifier maxIters stepsPerIter stateDim =
            ⟨List.replicate stepsPerIter .trainStep
                ++ [.verifyQuery, .reportSuccess, .saveCheckpoint, .finalMetrics],
              [], true⟩ ∧
          countTrainSteps (run_cegar falsifier maxIters stepsPerIter stateDim).events
              = stepsPerIter ∧
          countVerifies (run_cegar falsifier maxIters stepsPerIter stateDim).events = 1 ∧
          countSaves (run_cegar falsifier maxIters stepsPerIter stateDim).events = 1 ∧
          (run_cegar falsifier maxIters stepsPerIter stateDim).ces = [] ∧
          (run_cegar falsifier maxIters stepsPerIter stateDim).verified = true := by
  intro falsifier maxIters stepsPerIter stateDim hpos hvalid
  obtain ⟨m, rfl⟩ : ∃ m, maxIters = m + 1 := ⟨maxIters - 1, by omega⟩
  have htrace : run_cegar falsifier (m + 1) stepsPerIter stateDim =
      ⟨List.replicate stepsPerIter .trainStep
          ++ [.verifyQuery, .reportSuccess, .saveCheckpoint, .finalMetrics],
        [], true⟩ := by
    rw [run_cegar, cegarLoop, hvalid]
    simp
  refine ⟨htrace, ?_, ?_, ?_, ?_, ?_⟩ <;>
    simp [htrace, countTrainSteps, countVerifies, countSaves,
      List.countP_append, countP_replicate]

/-- Witness for C2: an always-valid falsifier stub, budget 1, three steps
per iteration. -/
theorem cegar_valid_first_query_witness :
    run_cegar (fun _ => FalsifierAnswer.valid) 1 3 2 =
      ⟨[.trainStep, .trainStep, .trainStep,
          .verifyQuery, .reportSuccess, .saveCheckpoint, .finalMetrics],
        [], true⟩ := by
  have h := (cegar_valid_first_query (fun _ => FalsifierAnswer.valid) 1 3 2
    (by norm_num) rfl).1
  simpa [List.replicate] using h

/-- Counterexample for C3 as stated: with an iteration budget of 1 and a
falsifier stub that always answers `invalid` with the model
`{x0 ↦ 1, x1 ↦ 0}` (extracted counter-example `[1, 0]`), the run does make
exactly one appended counter-example and one checkpoint save and reports
FAILED without an uncontrolled exception — but the failure report (the
`TRAINING FAILED` log of line 115) comes BEFORE the final metrics
bookkeeping (`tracker.add_run_losses` and the loss-plot save of lines
118-119), not after the controller finishes its bookkeeping as the claim
(and spec section 7: "finishes its bookkeeping (final checkpoint, final
metrics) before reporting") states: in the event trace the failure report
strictly precedes the final-metrics event. -/
theorem cegar_failure_report_order_counterexample :
    (run_cegar (fun _ => FalsifierAnswer.invalid
        (some [("x0", DrealVal.num 1), ("x1", DrealVal.num 0)])) 1 2 2).events =
      [.trainStep, .trainStep, .verifyQuery, .appendCE [1, 0], .saveCheckpoint,
        .reportFailed, .finalMetrics] ∧
    List.indexOf CegarEvent.reportFailed
        (run_cegar (fun _ => FalsifierAnswer.invalid
          (some [("x0", DrealVal.num 1), ("x1", DrealVal.num 0)])) 1 2 2).events <
      List.indexOf CegarEvent.finalMetrics
        (run_cegar (fun _ => FalsifierAnswer.invalid
          (some [("x0", DrealVal.num 1), ("x1", DrealVal.num 0)])) 1 2 2).events := by
  have hex : extract_ce_from_model
      (some [("x0", DrealVal.num 1), ("x1", DrealVal.num 0)]) 2 = [1, 0] := rfl
  have htrace : (run_cegar (fun _ => FalsifierAnswer.invalid
      (some [("x0", DrealVal.num 1), ("x1", DrealVal.num 0)])) 1 2 2).events =
      [.trainStep, .trainStep, .verifyQuery, .appendCE [1, 0], .saveCheckpoint,
        .reportFailed, .finalMetrics] := by
    rw [run_cegar, cegarLoop]
    simp [cegarLoop, hex, List.replicate]
  refine ⟨htrace, ?_⟩
  rw [htrace]
  decide

/-- C3 amended: with iteration budget 1 and an always-invalid falsifier
whose model extracts to `[1, 0]`, the run appends exactly one
counter-example, saves exactly one checkpoint, and terminates normally
(no escaping exception — the run function is total and returns a result)
with the failure verdict; the failure report comes after the in-loop
bookkeeping (counter-example append and checkpoint save) and before the
final metrics bookkeeping. -/
theorem cegar_budget_exhausted :
    ∀ (falsifier : ℕ → FalsifierAnswer) (stepsPerIter : ℕ)
      (model : Option (List (String × DrealVal))),
      falsifier 0 = .invalid model →
      extract_ce_from_model model 2 = [1, 0] →
        run_cegar falsifier 1 stepsPerIter 2 =
            ⟨List.replicate stepsPerIter .trainStep
                ++ [.verifyQuery, .appendCE [1, 0], .saveCheckpoint,
                    .reportFailed, .finalMetrics],
              [[1, 0]], false⟩ ∧
          (run_cegar falsifier 1 stepsPerIter 2).ces = [[1, 0]] ∧
          countSaves (run_cegar falsifier 1 stepsPerIter 2).events = 1 ∧
          (run_cegar falsifier 1 stepsPerIter 2).verified = false := by
  intro falsifier stepsPerIter model hinv hex
  have htrace : run_cegar falsifier 1 stepsPerIter 2 =
      ⟨List.replicate stepsPerIter .trainStep
          ++ [.verifyQuery, .appendCE [1, 0], .saveCheckpoint,
              .reportFailed, .finalMetrics],
        [[1, 0]], false⟩ := by
    rw [run_cegar, cegarLoop, hinv]
    simp [cegarLoop, hex]
  refine ⟨htrace, ?_, ?_, ?_⟩ <;>
    simp [htrace, countSaves, List.countP_append, countP_replicate]

/-- Witness for the amended C3 at the concrete stub of the scenario. -/
theorem cegar_budget_exhausted_witness :
    run_cegar (fun _ => FalsifierAnswer.invalid
        (some [("x0", DrealVal.num 1), ("x1", DrealVal.num 0)])) 1 2 2 =
      ⟨[.trainStep, .trainStep, .verifyQuery, .appendCE [1, 0], .saveCheckpoint,
          .reportFailed, .finalMetrics],
        [[1, 0]], false⟩ := by
  have hex : extract_ce_from_model
      (some [("x0", DrealVal.num 1), ("x1", DrealVal.num 0)]) 2 = [1, 0] := rfl
  have h := (cegar_budget_exhausted (fun _ => FalsifierAnswer.invalid
      (some [("x0", DrealVal.num 1), ("x1", DrealVal.num 0)])) 2 _ rfl hex).1
  simpa [List.replicate] using h

/-- C1 (code bug): the batch construction of `LyapunovACTrainer.train`
cannot guarantee that an accumulated counter-example influences a loss
term.  The method takes no counter-example argument, and the states
entering its five loss terms are exactly the origin, the fresh trajectory
starts and the two sampler batches (`trainLossStates`); so any
counter-example that differs from the origin and happens not to be
re-drawn by the samplers touches no loss term — for every training step,
however many steps the loop runs.  (The controller does pass
`counter_examples=all_counter_examples` into `agent.update` at
train_las_lac_cegar.py line 86, but the cited trainer discards them.) -/
theorem train_loss_states_ignore_counterexamples :
    ∀ (ce : List ℚ) (trajStarts r1Samples r2Samples : List (List ℚ)),
      ce ∉ trajStarts → ce ∉ r1Samples → ce ∉ r2Samples →
      ce ≠ List.replicate 2 0 →
        ce ∉ trainLossStates 2 trajStarts r1Samples r2Samples := by
  intro ce trajStarts r1Samples r2Samples h1 h2 h3 h4
  simp only [trainLossStates, List.mem_append, List.mem_singleton]
  rintro (((h | h) | h) | h)
  · exact h4 h
  · exact h1 h
  · exact h2 h
  · exact h3 h

/-- Witness for C1 at the failing input of the scenario: after
`[1, 0]` has been appended to the counter-example set, a training step
whose sampler draws are the origin (trajectory start and R1 batch) and
`[4, 4]` (an R2 output) never sees `[1, 0]` in any loss term. -/
theorem train_loss_states_ignore_counterexamples_witness :
    [1, 0] ∉ trainLossStates 2 [[0, 0]] [[0, 0], [0, 0]] [[4, 4]] :=
  train_loss_states_ignore_counterexamples [1, 0] [[0, 0]] [[0, 0], [0, 0]] [[4, 4]]
    (by decide) (by decide) (by decide) (by decide)

/-- `norm2` on a state on the first axis is the absolute value of the
coordinate. -/
theorem norm2_axis (a : ℝ) : norm2 (a, 0) = |a| := by
  rw [norm2]
  simp [Real.sqrt_sq_eq_abs]

theorem norm2_zero : norm2 (0 : ℝ × ℝ) = 0 := by
  rw [show (0 : ℝ × ℝ) = ((0 : ℝ), (0 : ℝ)) from rfl, norm2_axis]
  simp

/-- Whenever the combined convergence test of trainer lines 187-189 holds
on entry, the loop returns the trajectory unchanged, the accumulator
updated by the pre-step state's norm, and the convergent flag — for any
fuel. -/
theorem simLoop_stop (P : SimParams) (maxSteps fuel : ℕ) (x : ℝ × ℝ)
    (traj : List (ℝ × ℝ)) (acc : ℝ) (steps : ℕ)
    (h : stopCond P maxSteps x traj (steps + 1)) :
    simLoop P maxSteps fuel x traj acc steps = (traj, acc + norm2 x * P.dt, true) := by
  cases fuel with
  | zero => rw [simLoop, if_pos h]
  | succ f => rw [simLoop, if_pos h]

/-- When the convergence test fails and the updated accumulator exceeds
the integral threshold, the loop returns divergent — for any fuel. -/
theorem simLoop_diverge (P : SimParams) (maxSteps fuel : ℕ) (x : ℝ × ℝ)
    (traj : List (ℝ × ℝ)) (acc : ℝ) (steps : ℕ)
    (h1 : ¬ stopCond P maxSteps x traj (steps + 1))
    (h2 : acc + norm2 x * P.dt > P.integThreshold) :
    simLoop P maxSteps fuel x traj acc steps = (traj, acc + norm2 x * P.dt, false) := by
  cases fuel with
  | zero => rw [simLoop, if_neg h1, if_pos h2]
  | succ f => rw [simLoop, if_neg h1, if_pos h2]

/-- When neither termination test fires, the loop steps the state, appends
it, and recurses with one unit less fuel. -/
theorem simLoop_advance (P : SimParams) (maxSteps fuel : ℕ) (x : ℝ × ℝ)
    (traj : List (ℝ × ℝ)) (acc : ℝ) (steps : ℕ) (hf : fuel ≠ 0)
    (h1 : ¬ stopCond P maxSteps x traj (steps + 1))
    (h2 : ¬ acc + norm2 x * P.dt > P.integThreshold) :
    simLoop P maxSteps fuel x traj acc steps =
      simLoop P maxSteps (fuel - 1) (P.step x) (traj ++ [P.step x])
        (acc + norm2 x * P.dt) (steps + 1) := by
  cases fuel with
  | zero => exact absurd rfl hf
  | succ f =>
      rw [simLoop, if_neg h1, if_neg h2]
      rfl

/-- C4: a trajectory started inside the norm threshold terminates within
one integration step (the step map is never invoked), convergent, with the
singleton trajectory `[x]` and integrated cost `||x|| * dt`; in
particular, with the scenario configuration `norm_threshold = 0.05`,
`integ_threshold = 500`, `dt = 0.003`, a trajectory started at the origin
is convergent with integrated cost `0` and trajectory length 1. -/
theorem simulate_trajectory_immediate_convergence :
    (∀ (P : SimParams) (x : ℝ × ℝ) (maxSteps : ℕ),
        norm2 x < P.normThreshold →
          simulate_trajectory P x maxSteps = ([x], norm2 x * P.dt, true)) ∧
      ∀ (step : ℝ × ℝ → ℝ × ℝ) (maxSteps : ℕ),
        simulate_trajectory ⟨1/20, 500, 3/1000, step⟩ (0, 0) maxSteps
          = ([(0, 0)], 0, true) := by
  have main : ∀ (P : SimParams) (x : ℝ × ℝ) (maxSteps : ℕ),
      norm2 x < P.normThreshold →
        simulate_trajectory P x maxSteps = ([x], norm2 x * P.dt, true) := by
    intro P x maxSteps h
    rw [simulate_trajectory, simLoop_stop P maxSteps maxSteps x [x] 0 0 (Or.inl h)]
    rw [zero_add]
  refine ⟨main, fun step maxSteps => ?_⟩
  have h0 : norm2 ((0 : ℝ), (0 : ℝ)) = 0 := by
    rw [norm2_axis]
    simp
  have h := main ⟨1/20, 500, 3/1000, step⟩ (0, 0) maxSteps (by rw [h0]; norm_num)
  rw [h, h0, zero_mul]

/-- Witness for C4: a state of norm `1/20 = 0.05` below the threshold
`6/100`, with the identity step map. -/
theorem simulate_trajectory_immediate_convergence_witness :
    simulate_trajectory ⟨6/100, 500, 3/1000, id⟩ ((3/100 : ℝ), (4/100 : ℝ)) 7
      = ([((3/100 : ℝ), (4/100 : ℝ))], (1/20) * (3/1000), true) := by
  have hn : norm2 ((3/100 : ℝ), (4/100 : ℝ)) = 1/20 := by
    rw [norm2, show ((3:ℝ)/100) ^ 2 + ((4:ℝ)/100) ^ 2 = (1/20) ^ 2 by norm_num,
      Real.sqrt_sq (by norm_num)]
  have h := simulate_trajectory_immediate_convergence.1 ⟨6/100, 500, 3/1000, id⟩
    ((3/100 : ℝ), (4/100 : ℝ)) 7 (by rw [hn]; norm_num)
  rw [h, hn]

/-- C6 amended: during the simulation loop, whenever the trajectory
history is longer than 10 states and the Euclidean distance between the
current state `traj[-1]` and the state `traj[-10]` — the tenth element
from the end, i.e. the state recorded NINE steps earlier — is below
`1e-3`, the loop stops at once and reports convergent (the outcome is the
same whether or not the norm-threshold disjunct also fired, since both
return through the same branch).  The claim's "state recorded 10 steps
earlier" is off by one: Python's `traj[-10]` on the length-`t+1` history
`[x_0..x_t]` is `x_{t-9}`. -/
theorem simulate_plateau_convergence :
    ∀ (P : SimParams) (maxSteps fuel : ℕ) (x : ℝ × ℝ) (traj : List (ℝ × ℝ))
      (acc : ℝ) (steps : ℕ),
      traj.length > 10 →
      norm2 (traj.getD (traj.length - 1) (0, 0) - traj.getD (traj.length - 10) (0, 0))
          < 1 / 1000 →
      simLoop P maxSteps fuel x traj acc steps = (traj, acc + norm2 x * P.dt, true) := by
  intro P maxSteps fuel x traj acc steps h1 h2
  exact simLoop_stop P maxSteps fuel x traj acc steps (Or.inr (Or.inl ⟨h1, h2⟩))

/-- Witness for the amended C6: an eleven-state constant history plateaus
and the loop stops convergent immediately. -/
theorem simulate_plateau_convergence_witness :
    simLoop ⟨1, 1, 1, id⟩ 100 5 ((0 : ℝ), (0 : ℝ))
        (List.replicate 11 ((0 : ℝ), (0 : ℝ))) 0 0
      = (List.replicate 11 ((0 : ℝ), (0 : ℝ)), 0, true) := by
  have h := simulate_plateau_convergence ⟨1, 1, 1, id⟩ 100 5 ((0 : ℝ), (0 : ℝ))
    (List.replicate 11 ((0 : ℝ), (0 : ℝ))) 0 0 (by simp)
    (by simp [List.getD, norm2_zero])
  rw [h]
  rw [norm2_axis]
  simp


/-- Counterexample for C6 as stated: with the period-two closed loop of
`plateauParams`, at the pass where the history was the first 11 states of
`plateauTraj` (length 11 > 10) the current state `(1,0)` was at distance
`0 < 1e-3` from the state recorded ten steps earlier (`plateauTraj[0]`),
exactly the claim's premise — yet the run does not stop there with a
convergent verdict: it continues (the returned trajectory has 12 states)
and reports divergent, because the code's check compares `traj[-1]` with
`traj[-10]`, the state nine steps earlier, which is at distance `1`. -/
theorem simulate_plateau_claim_counterexample :
    simulate_trajectory plateauParams ((1 : ℝ), (0 : ℝ)) 100
        = (plateauTraj, 9/5, false) ∧
      (plateauTraj.take 11).length > 10 ∧
      norm2 (plateauTraj.getD 10 (0, 0) - plateauTraj.getD 0 (0, 0)) < 1 / 1000 ∧
      plateauTraj.length = 12 := by
  refine ⟨?_, by simp [plateauTraj], ?_, by simp [plateauTraj]⟩
  · rw [simulate_trajectory]
    rw [simLoop_advance _ 100 100 ((1:ℝ), (0:ℝ)) [(1, 0)] (0) 0
      (by norm_num)
      (by simp [stopCond, plateauParams, norm2_axis, List.getD, Prod.mk_sub_mk] <;> norm_num)
      (by simp [plateauParams, norm2_axis] <;> norm_num)]
    norm_num [plateauParams, norm2_axis]
    rw [simLoop_advance _ 100 99 ((2:ℝ), (0:ℝ)) [(1, 0), (2, 0)] (1/10) 1
      (by norm_num)
      (by simp [stopCond, plateauParams, norm2_axis, List.getD, Prod.mk_sub_mk] <;> norm_num)
      (by simp [plateauParams, norm2_axis] <;> norm_num)]
    norm_num [plateauParams, norm2_axis]
    rw [simLoop_advance _ 100 98 ((1:ℝ), (0:ℝ)) [(1, 0), (2, 0), (1, 0)] (3/10) 2
      (by norm_num)
      (by simp [stopCond, plateauParams, norm2_axis, List.getD, Prod.mk_sub_mk] <;> norm_num)
      (by simp [plateauParams, norm2_axis] <;> norm_num)]
    norm_num [plateauParams, norm2_axis]
    rw [simLoop_advance _ 100 97 ((2:ℝ), (0:ℝ)) [(1, 0), (2, 0), (1, 0), (2, 0)] (2/5) 3
      (by norm_num)
      (by simp [stopCond, plateauParams, norm2_axis, List.getD, Prod.mk_sub_mk] <;> norm_num)
      (by simp [plateauParams, norm2_axis] <;> norm_num)]
    norm_num [plateauParams, norm2_axis]
    rw [simLoop_advance _ 100 96 ((1:ℝ), (0:ℝ)) [(1, 0), (2, 0), (1, 0), (2, 0), (1, 0)] (3/5) 4
      (by norm_num)
      (by simp [stopCond, plateauParams, norm2_axis, List.getD, Prod.mk_sub_mk] <;> norm_num)
      (by simp [plateauParams, norm2_axis] <;> norm_num)]
    norm_num [plateauParams, norm2_axis]
    rw [simLoop_advance _ 100 95 ((2:ℝ), (0:ℝ)) [(1, 0), (2, 0), (1, 0), (2, 0), (1, 0), (2, 0)] (7/10) 5
      (by norm_num)
      (by simp [stopCond, plateauParams, norm2_axis, List.getD, Prod.mk_sub_mk] <;> norm_num)
      (by simp [plateauParams, norm2_axis] <;> norm_num)]
    norm_num [plateauParams, norm2_axis]
    rw [simLoop_advance _ 100 94 ((1:ℝ), (0:ℝ)) [(1, 0), (2, 0), (1, 0), (2, 0), (1, 0), (2, 0), (1, 0)] (9/10) 6
      (by norm_num)
      (by simp [stopCond, plateauParams, norm2_axis, List.getD, Prod.mk_sub_mk] <;> norm_num)
      (by simp [plateauParams, norm2_axis] <;> norm_num)]
    norm_num [plateauParams, norm2_axis]
    rw [simLoop_advance _ 100 93 ((2:ℝ), (0:ℝ)) [(1, 0), (2, 0), (1, 0), (2, 0), (1, 0), (2, 0), (1, 0), (2, 0)] (1) 7
      (by norm_num)
      (by simp [stopCond, plateauParams, norm2_axis, List.getD, Prod.mk_sub_mk] <;> norm_num)
      (by simp [plateauParams, norm2_axis] <;> norm_num)]
    norm_num [plateauParams, norm2_axis]
    rw [simLoop_advance _ 100 92 ((1:ℝ), (0:ℝ)) [(1, 0), (2, 0), (1, 0), (2, 0), (1, 0), (2, 0), (1, 0), (2, 0), (1, 0)] (6/5) 8
      (by norm_num)
      (by simp [stopCond, plateauParams, norm2_axis, List.getD, Prod.mk_sub_mk] <;> norm_num)
      (by simp [plateauParams, norm2_axis] <;> norm_num)]
    norm_num [plateauParams, norm2_axis]
    rw [simLoop_advance _ 100 91 ((2:ℝ), (0:ℝ)) [(1, 0), (2, 0), (1, 0), (2, 0), (1, 0), (2, 0), (1, 0), (2, 0), (1, 0), (2, 0)] (13/10) 9
      (by norm_num)
      (by simp [stopCond, plateauParams, norm2_axis, List.getD, Prod.mk_sub_mk] <;> norm_num)
      (by simp [plateauParams, norm2_axis] <;> norm_num)]
    norm_num [plateauParams, norm2_axis]
    rw [simLoop_advance _ 100 90 ((1:ℝ), (0:ℝ)) [(1, 0), (2, 0), (1, 0), (2, 0), (1, 0), (2, 0), (1, 0), (2, 0), (1, 0), (2, 0), (1, 0)] (3/2) 10
      (by norm_num)
      (by simp [stopCond, plateauParams, norm2_axis, List.getD, Prod.mk_sub_mk] <;> norm_num)
      (by simp [plateauParams, norm2_axis] <;> norm_num)]
    norm_num [plateauParams, norm2_axis]
    rw [simLoop_diverge _ 100 89 ((2:ℝ), (0:ℝ)) [(1, 0), (2, 0), (1, 0), (2, 0), (1, 0), (2, 0), (1, 0), (2, 0), (1, 0), (2, 0), (1, 0), (2, 0)] (8/5) 11
      (by simp [stopCond, plateauParams, norm2_axis, List.getD, Prod.mk_sub_mk] <;> norm_num)
      (by simp [plateauParams, norm2_axis] <;> norm_num)]
    norm_num [plateauParams, plateauTraj, norm2_axis]
  · simp [plateauTraj, List.getD, Prod.mk_sub_mk, norm2_zero]

theorem ceStep_length (d : ℕ) (acc : List ℚ) (p : String × DrealVal) :
    (ceStep d acc p).length = acc.length := by
  cases hq : parseXIndex p.1 with
  | none => simp [ceStep, hq]
  | some i =>
      by_cases h : 0 ≤ i ∧ i < (d : ℤ)
      · simp [ceStep, hq, h]
      · simp [ceStep, hq, h]

theorem extract_fold_length (entries : List (String × DrealVal)) (d : ℕ) :
    ∀ acc : List ℚ, (entries.foldl (ceStep d) acc).length = acc.length := by
  induction entries with
  | nil => intro acc; rfl
  | cons q rest ih =>
      intro acc
      rw [List.foldl_cons, ih, ceStep_length]

theorem extract_fold_preserve (d : ℕ) (j : ℕ) :
    ∀ (entries : List (String × DrealVal)) (acc : List ℚ),
      (∀ q ∈ entries, ∀ i : ℤ, parseXIndex q.1 = some i →
        0 ≤ i → i < (d : ℤ) → i.toNat ≠ j) →
      (entries.foldl (ceStep d) acc).getD j 0 = acc.getD j 0 := by
  intro entries
  induction entries with
  | nil => intro acc _; rfl
  | cons q rest ih =>
      intro acc hnone
      rw [List.foldl_cons, ih _ (fun q' hq' => hnone q' (List.mem_cons_of_mem q hq'))]
      cases hq : parseXIndex q.1 with
      | none => simp [ceStep, hq]
      | some i =>
          by_cases hin : 0 ≤ i ∧ i < (d : ℤ)
          · simp only [ceStep, hq, if_pos hin]
            rw [List.getD_eq_getElem?_getD, List.getD_eq_getElem?_getD,
              List.getElem?_set_ne (hnone q (List.mem_cons_self q rest) i hq hin.1 hin.2)]
          · simp [ceStep, hq, hin]

theorem extract_fold_getD (d : ℕ) (j : ℕ) (hjd : j < d) :
    ∀ (entries : List (String × DrealVal)) (acc : List ℚ),
      acc.length = d →
      (entries.filterMap (fun q => parseXIndex q.1)).Nodup →
      (entries.foldl (ceStep d) acc).getD j 0 =
        ((entries.find? fun q => parseXIndex q.1 == some (j : ℤ)).map
          fun q => q.2.resolve).getD (acc.getD j 0) := by
  intro entries
  induction entries with
  | nil => intro acc _ _; rfl
  | cons q rest ih =>
      intro acc hlen hnd
      rw [List.foldl_cons]
      cases hq : parseXIndex q.1 with
      | none =>
          have hpred : ¬ (fun q : String × DrealVal =>
              parseXIndex q.1 == some (j : ℤ)) q = true := by
            simp [hq]
          rw [@List.find?_cons_of_neg _
            (fun q : String × DrealVal => parseXIndex q.1 == some (j : ℤ)) q rest hpred]
          have hstep : ceStep d acc q = acc := by simp only [ceStep, hq]
          rw [hstep]
          refine ih acc hlen ?_
          rwa [@List.filterMap_cons_none _ _
            (fun q' : String × DrealVal => parseXIndex q'.1) q rest hq] at hnd
      | some i =>
          have hnd' := hnd
          rw [@List.filterMap_cons_some _ _
            (fun q' : String × DrealVal => parseXIndex q'.1) q rest i hq,
            List.nodup_cons] at hnd'
          by_cases hin : 0 ≤ i ∧ i < (d : ℤ)
          · by_cases hij : i.toNat = j
            · have hi : i = (j : ℤ) := by omega
              have hpred : (fun q : String × DrealVal =>
                  parseXIndex q.1 == some (j : ℤ)) q = true := by
                simp [hq, hi]
              rw [@List.find?_cons_of_pos _
                (fun q : String × DrealVal => parseXIndex q.1 == some (j : ℤ)) q rest hpred]
              have hstep : ceStep d acc q = acc.set j q.2.resolve := by
                simp only [ceStep, hq, if_pos hin, hij]
              rw [hstep]
              rw [extract_fold_preserve d j rest _ ?_]
              · rw [List.getD_eq_getElem?_getD,
                  List.getElem?_set_self (by omega), Option.getD_some, Option.map_some',
                  Option.getD_some]
              · intro q' hq' i' hpi' h0 hd htn
                exact hnd'.1 (by
                  have : i' = i := by omega
                  exact this ▸ List.mem_filterMap.mpr ⟨q', hq', hpi'⟩)
            · have hpred : ¬ (fun q : String × DrealVal =>
                  parseXIndex q.1 == some (j : ℤ)) q = true := by
                simp only [hq, beq_iff_eq, Option.some.injEq]
                omega
              rw [@List.find?_cons_of_neg _
                (fun q : String × DrealVal => parseXIndex q.1 == some (j : ℤ)) q rest hpred]
              have hstep : ceStep d acc q = acc.set i.toNat q.2.resolve := by
                simp only [ceStep, hq, if_pos hin]
              rw [hstep]
              rw [ih _ (by rw [List.length_set]; exact hlen) hnd'.2]
              rw [List.getD_eq_getElem?_getD (acc.set i.toNat q.2.resolve),
                List.getElem?_set_ne hij, ← List.getD_eq_getElem?_getD]
          · have hpred : ¬ (fun q : String × DrealVal =>
                parseXIndex q.1 == some (j : ℤ)) q = true := by
              simp only [hq, beq_iff_eq, Option.some.injEq]
              omega
            rw [@List.find?_cons_of_neg _
              (fun q : String × DrealVal => parseXIndex q.1 == some (j : ℤ)) q rest hpred]
            have hstep : ceStep d acc q = acc := by simp only [ceStep, hq, if_neg hin]
            rw [hstep]
            exact ih acc hlen hnd'.2

/-- C9: counter-example extraction never raises — it is a total function of
the model — and for every model whose entries name pairwise-distinct
indices: a falsy (absent) model yields the all-zero vector, the result
always has length `state_dim`, and each coordinate `j < state_dim` holds
the resolved value (the number itself, or the interval midpoint) of the
entry named `x<j>` when one exists, and `0` otherwise — so missing,
out-of-range, and non-numeric-index variables leave zeros. -/
theorem extract_ce_tolerates_malformed_models :
    (∀ d : ℕ, extract_ce_from_model none d = List.replicate d 0) ∧
      (∀ (model : Option (List (String × DrealVal))) (d : ℕ),
        (extract_ce_from_model model d).length = d) ∧
      ∀ (entries : List (String × DrealVal)) (d : ℕ),
        (entries.filterMap (fun q => parseXIndex q.1)).Nodup →
        ∀ j : ℕ, j < d →
          (extract_ce_from_model (some entries) d).getD j 0 =
            ((entries.find? fun q => parseXIndex q.1 == some (j : ℤ)).map
              fun q => q.2.resolve).getD 0 := by
  refine ⟨fun d => rfl, ?_, ?_⟩
  · intro model d
    cases model with
    | none => rw [extract_ce_from_model, List.length_replicate]
    | some entries =>
        rw [extract_ce_from_model, extract_fold_length, List.length_replicate]
  · intro entries d hnd j hjd
    rw [extract_ce_from_model,
      extract_fold_getD d j hjd entries _ (List.length_replicate d 0) hnd]
    congr 1
    rw [List.getD_eq_getElem?_getD, List.getElem?_replicate]
    simp [hjd]

/-- Witness for C9: a model mixing an interval value, a wrong-prefix
variable, a malformed index, and an out-of-range index resolves coordinate
1 to the interval midpoint `3/2`. -/
theorem extract_ce_tolerates_malformed_models_witness :
    (extract_ce_from_model
        (some [("x1", DrealVal.interval 1 2), ("y0", DrealVal.num 9),
               ("xq", DrealVal.num 7), ("x5", DrealVal.num 3)]) 2).getD 1 0
      = 3 / 2 := by
  have h := extract_ce_tolerates_malformed_models.2.2
    [("x1", DrealVal.interval 1 2), ("y0", DrealVal.num 9),
     ("xq", DrealVal.num 7), ("x5", DrealVal.num 3)] 2 (by decide) 1 (by norm_num)
  rw [h]
  have hfind : ([("x1", DrealVal.interval 1 2), ("y0", DrealVal.num 9),
      ("xq", DrealVal.num 7), ("x5", DrealVal.num 3)].find? fun q =>
        parseXIndex q.1 == some ((1 : ℕ) : ℤ)) = some ("x1", DrealVal.interval 1 2) := by
    rfl
  rw [hfind, Option.map_some', Option.getD_some]
  norm_num [DrealVal.resolve]

/-- Adding outward noise in the sign direction never shrinks the absolute
value: `|a| ≤ |a + sign(a) * t|` for `t ≥ 0` (with `sign 0 = 0`). -/
theorem abs_le_abs_add_qsign (a t : ℚ) (ht : 0 ≤ t) :
    |a| ≤ |a + qsign a * t| := by
  rcases lt_trichotomy a 0 with h | h | h
  · rw [qsign, if_neg (by linarith), if_pos h,
      abs_of_neg h, abs_of_neg (by linarith : a + -1 * t < 0)]
    linarith
  · simp [h, qsign]
  · rw [qsign, if_pos h, abs_of_pos h, abs_of_pos (by linarith : 0 < a + 1 * t)]
    linarith

/-- One `sample_out_of_region` sample from a nonzero draw has maximum
coordinate-to-bound ratio at least `1`. -/
theorem sample_out_ratio_ge_one {d : ℕ} (lb ub draw noise : Fin d → ℚ) (scale : ℚ)
    (hub : ∀ i, 0 < ub i) (hs : 0 < scale) (hn : ∀ i, 0 ≤ noise i)
    (hpos : 0 < maxCoordRatio draw ub scale) :
    1 ≤ maxCoordRatio (sample_out_of_region lb ub scale draw noise) ub scale := by
  obtain ⟨x, -, hx⟩ : ∃ x ∈ Finset.univ,
      maxCoordRatio draw ub scale ≤ |draw x| / (ub x * scale) := by
    rcases (Finset.le_fold_max (maxCoordRatio draw ub scale)).mp
        (le_refl (maxCoordRatio draw ub scale)) with h0 | hx
    · exact absurd h0 (by linarith)
    · exact hx
  have hux : 0 < ub x * scale := mul_pos (hub x) hs
  have hsx : sample_out_of_region lb ub scale draw noise x =
      draw x / maxCoordRatio draw ub scale
        + qsign (draw x / maxCoordRatio draw ub scale) * noise x := rfl
  rw [maxCoordRatio]
  refine (Finset.le_fold_max 1).mpr (Or.inr ⟨x, Finset.mem_univ x, ?_⟩)
  have h1 : |draw x / maxCoordRatio draw ub scale|
      ≤ |sample_out_of_region lb ub scale draw noise x| := by
    rw [hsx]
    exact abs_le_abs_add_qsign _ (noise x) (hn x)
  have h2 : |draw x / maxCoordRatio draw ub scale|
      = |draw x| / maxCoordRatio draw ub scale := by
    rw [abs_div, abs_of_pos hpos]
  have h3 : (1 : ℚ) ≤ (|draw x| / maxCoordRatio draw ub scale) / (ub x * scale) := by
    rw [div_right_comm, ← div_self (ne_of_gt hpos)]
    exact (div_le_div_iff_of_pos_right hpos).mpr hx
  calc (1 : ℚ)
      ≤ (|draw x| / maxCoordRatio draw ub scale) / (ub x * scale) := h3
    _ = |draw x / maxCoordRatio draw ub scale| / (ub x * scale) := by rw [h2]
    _ ≤ |sample_out_of_region lb ub scale draw noise x| / (ub x * scale) :=
        (div_le_div_iff_of_pos_right hux).mpr h1

/-- C5 amended: for positive bounds and scale, non-negative noise, and raw
draws with at least one nonzero coordinate (positive pre-rescale maximum
ratio — an almost-sure event for the uniform draw), every sample of the
batch satisfies `max_i |x_i| / (ub_i * scale) ≥ 1`, i.e. lies on or
outside the scaled boundary.  (The claim as stated fails only on the
all-zero raw draw, where the rescaling divides by zero.) -/
theorem sample_out_of_region_outside_scaled_region :
    ∀ (d : ℕ) (lb ub : Fin d → ℚ) (scale : ℚ) (draws noises : List (Fin d → ℚ)),
      (∀ i, 0 < ub i) → 0 < scale →
      (∀ nv ∈ noises, ∀ i, 0 ≤ nv i) →
      (∀ dr ∈ draws, 0 < maxCoordRatio dr ub scale) →
      ∀ y ∈ sample_out_of_region_batch lb ub scale draws noises,
        1 ≤ maxCoordRatio y ub scale := by
  intro d lb ub scale draws noises hub hs hn hd y hy
  rw [sample_out_of_region_batch] at hy
  obtain ⟨p, hp, rfl⟩ := List.mem_map.mp hy
  obtain ⟨dr, nv⟩ := p
  have hmem := List.of_mem_zip hp
  exact sample_out_ratio_ge_one lb ub dr nv scale hub hs
    (hn nv hmem.2) (hd dr hmem.1)

/-- Witness for the amended C5: the one-sample batch drawn at `1/2` with
zero noise, `ub = 1`, `scale = 2`, gives the sample `2` with maximum
ratio exactly `1`. -/
theorem sample_out_of_region_outside_scaled_region_witness :
    1 ≤ maxCoordRatio (sample_out_of_region (fun _ : Fin 1 => 0) (fun _ => 1) 2
        (fun _ => 1/2) (fun _ => 0)) (fun _ => 1) 2 := by
  refine sample_out_of_region_outside_scaled_region 1 (fun _ => 0) (fun _ => 1) 2
    [fun _ => 1/2] [fun _ => 0] (fun i => by norm_num) (by norm_num)
    (fun nv hnv i => ?_) (fun dr hdr => ?_) _ ?_
  · rw [List.mem_singleton] at hnv
    subst hnv
    norm_num
  · rw [List.mem_singleton] at hdr
    subst hdr
    simp only [maxCoordRatio, Finset.univ_unique, Finset.fold_singleton]
    rw [lt_max_iff]
    left
    rw [abs_of_pos (by norm_num : (0:ℚ) < 1/2)]
    norm_num
  · rw [sample_out_of_region_batch]
    exact List.mem_singleton.mpr rfl

/-- Counterexample for C5 as stated: on the all-zero raw draw (a point of
the uniform draw's support) the rescaling step divides by a zero maximum
ratio, and the resulting sample fails `max_i |x_i| / (ub_i * scale) ≥ 1`
(in the rational idealisation the division yields `0`; numpy produces
`nan`, which likewise fails the bound). -/
theorem sample_out_of_region_zero_draw_counterexample :
    maxCoordRatio (sample_out_of_region (fun _ : Fin 1 => 0) (fun _ => 1) 2
        (fun _ => 0) (fun _ => 0)) (fun _ => 1) 2 < 1 := by
  simp [sample_out_of_region, maxCoordRatio, qsign,
    Finset.univ_unique, Finset.fold_singleton]

end LyapunovRL
